import Mathlib

/-!
Shallow embedding of the core pipeline of the `muller_diagrams` repository
(trajectory clustering, statistical lineage checks, genotype sorting and
ggmuller table generation), together with theorems settling the spec claims.

Conventions of the embedding:
* frequencies and timepoint labels are rationals (`ℚ`); the Python code uses
  floats, but every branch decision in the verified fragments is an order
  comparison, so `ℚ` is adequate;
* a pandas `Series` of frequencies is a `List ℚ` aligned with a shared list of
  timepoint labels (the pipeline keeps all genotype series on the identical,
  ascending column index of one DataFrame);
* the p-value returned by `scipy.stats.ttest_1samp` is modelled exactly
  (two-tailed p-value of the one-sample Student t test); a `NaN` result
  (fewer than two samples, or zero variance with mean equal to the population
  mean) is modelled as `Option.none`, and the float comparisons `nan <= c`
  and `nan > c`, which are false in IEEE arithmetic, are modelled accordingly.
-/

namespace Muller

/-! ## Basic statistics helpers (model of numpy/pandas reductions) -/

/-- Arithmetic mean of a list of rationals (0 for the empty list, by `ℚ`
division conventions). -/
def listMean (xs : List ℚ) : ℚ := xs.sum / xs.length

/-- Sample variance with one delta degree of freedom, as used by
`scipy.stats.ttest_1samp`. -/
def sampleVariance (xs : List ℚ) : ℚ :=
  ((xs.map (fun x => (x - listMean xs) ^ 2)).sum) / ((xs.length : ℚ) - 1)

/-- Sample covariance (ddof = 1) of a list of aligned pairs, as computed by
`pandas.Series.cov` on two series sharing their index. -/
def listCovPairs (ps : List (ℚ × ℚ)) : ℚ :=
  let mx := listMean (ps.map Prod.fst)
  let my := listMean (ps.map Prod.snd)
  ((ps.map (fun p => (p.1 - mx) * (p.2 - my))).sum) / ((ps.length : ℚ) - 1)

/-- Sample covariance of two aligned series (`left.cov(right)` in pandas). -/
def listCov (xs ys : List ℚ) : ℚ := listCovPairs (xs.zip ys)

/-! ## Student t distribution (model of the scipy t test)

The density below is the standard Student t density with `ν` degrees of
freedom; `studentTSf` is its survival function.  `scipy.stats.ttest_1samp`
returns the two-tailed p-value `2 * sf(|t|)` for the statistic
`t = (mean - popmean) / (s / sqrt n)` with `s` the sample standard deviation
(ddof = 1). -/

/-- Density of the Student t distribution with `ν` degrees of freedom. -/
noncomputable def studentTDensity (ν : ℕ) (y : ℝ) : ℝ :=
  Real.Gamma (((ν : ℝ) + 1) / 2) / (Real.sqrt (ν * Real.pi) * Real.Gamma ((ν : ℝ) / 2)) *
    (1 + y ^ 2 / ν) ^ (-(((ν : ℝ) + 1) / 2))

/-- Survival function (upper tail probability) of the Student t
distribution. -/
noncomputable def studentTSf (ν : ℕ) (t : ℝ) : ℝ :=
  ∫ y in Set.Ioi t, studentTDensity ν y

/-- The t statistic of the one-sample t test of `sample` against the
population mean `popmean`. -/
noncomputable def tStatistic (sample : List ℚ) (popmean : ℚ) : ℝ :=
  ((listMean sample : ℝ) - (popmean : ℝ)) /
    (Real.sqrt ((sampleVariance sample : ℚ) : ℝ) / Real.sqrt (sample.length : ℝ))

/-- Two-tailed p-value of `scipy.stats.ttest_1samp(sample, popmean)`.
`none` models the `NaN` that scipy produces when the statistic is `0/0`
(one sample, or zero variance with the mean equal to `popmean`); a zero
variance with a mean different from `popmean` gives an infinite statistic and
a p-value of `0`. -/
noncomputable def ttest_1samp (sample : List ℚ) (popmean : ℚ) : Option ℝ :=
  if sample.length ≤ 1 then none
  else if sampleVariance sample = 0 then
    (if listMean sample = popmean then none else some 0)
  else some (2 * studentTSf (sample.length - 1) |tStatistic sample popmean|)

/-- Comparison `p <= c` on a possibly-`NaN` p-value: `nan <= c` is false. -/
def pvalueLe (p : Option ℝ) (c : ℝ) : Prop :=
  match p with
  | none => False
  | some v => v ≤ c

/-- Comparison `p > c` on a possibly-`NaN` p-value: `nan > c` is false. -/
def pvalueGt (p : Option ℝ) (c : ℝ) : Prop :=
  match p with
  | none => False
  | some v => c < v

/-! ## src/muller/inheritance/checks.py -/

/-- Model of `get_detected_points`: removes the (index-aligned) points where
both series are below the detection limit.  The Python code concatenates the
two series on their shared index and drops the rows where
`row[0] < dlimit and row[1] < dlimit`. -/
def get_detected_points (left right : List ℚ) (dlimit : ℚ) : List (ℚ × ℚ) :=
  (left.zip right).filter (fun p => !(decide (p.1 < dlimit) && decide (p.2 < dlimit)))

/-- Model of `check_additive_background`.  The detection limit is hard-coded
to `0.03` in the source; `double_cutoff` and `single_cutoff` are accepted but
unused by the statistical variant.  The two-tailed p-value of the t test of
the pairwise sums against `1` is halved and the check returns
`not (pvalue <= 0.05)`. -/
noncomputable def check_additive_background (left right : List ℚ)
    (double_cutoff single_cutoff : ℚ) : Prop :=
  let detected := get_detected_points left right (3 / 100)
  let genotypesum := detected.map (fun p => p.1 + p.2)
  let p := if genotypesum.isEmpty then some (0 : ℝ) else ttest_1samp genotypesum 1
  ¬ pvalueLe (p.map (fun v => v / 2)) (1 / 20)

/-- Model of `check_subtractive_background`: t test of the elementwise
absolute differences against `0`; returns `pvalue > 0.05` (the p-value is not
halved here). -/
noncomputable def check_subtractive_background (left right : List ℚ)
    (double_cutoff single_cutoff : ℚ) : Prop :=
  let detected := get_detected_points left right (3 / 100)
  let difference := detected.map (fun p => |p.1 - p.2|)
  let p := if difference.isEmpty then some (0 : ℝ) else ttest_1samp difference 0
  pvalueGt p (1 / 20)

/-- Model of `check_derivative_background`: the source computes
`left.cov(right)` over the full pair of series; `detection_cutoff` is accepted
but never used. -/
def check_derivative_background (left right : List ℚ) (detection_cutoff : ℚ) : ℚ :=
  listCov left right

/-- Covariance over the overlapping detected region only, as the spec
describes the derivative check.  This definition follows the spec's words and
exists to be compared with `check_derivative_background`, which follows the
source. -/
def spec_derivative_covariance (left right : List ℚ) (detection_cutoff : ℚ) : ℚ :=
  listCovPairs (get_detected_points left right detection_cutoff)

/-- Options record consumed by `apply_genotype_checks`. -/
structure GenotypeCheckOptions where
  additive_background_double_cutoff : ℚ
  additive_background_single_cutoff : ℚ
  subtractive_background_double_cutoff : ℚ
  subtractive_background_single_cutoff : ℚ
  derivative_detection_cutoff : ℚ

open Classical in
/-- Model of `apply_genotype_checks`: the three checks, with the derivative
delta computed only when the subtractive check is `False` (`None`
otherwise). -/
noncomputable def apply_genotype_checks (type_trajectory test_trajectory : List ℚ)
    (options : GenotypeCheckOptions) : Prop × Prop × Option ℚ :=
  let additive_check := check_additive_background type_trajectory test_trajectory
    options.additive_background_double_cutoff options.additive_background_single_cutoff
  let subtractive_check := check_subtractive_background type_trajectory test_trajectory
    options.subtractive_background_double_cutoff options.subtractive_background_single_cutoff
  let delta := if subtractive_check then none else
    some (check_derivative_background type_trajectory test_trajectory
      options.derivative_detection_cutoff)
  (additive_check, subtractive_check, delta)

/-! ## src/muller/muller_output/generate_tables.py -/

/-- One genotype entry of the cluster map handed to the edge-table builder:
its name and its structural ancestor (background) list. -/
structure GenotypeInfo where
  name : String
  background : List String
deriving DecidableEq

/-- Loop body of `generate_ggmuller_edges_table`: the `(Parent, Identity)` row
of one genotype.  `Parent` is `background[0]`, replaced by `genotype-0` when
the background list has length 1 or when the computed parent equals the
genotype's own name.  (`background[0]` on an empty list raises in Python;
`headI` defaults to `""`, and the theorems assume nonempty backgrounds.) -/
def edge_row (gi : GenotypeInfo) : String × String :=
  let identity := gi.name
  let parent0 := if gi.background.length = 1 then "genotype-0" else gi.background.headI
  let parent := if parent0 = identity then "genotype-0" else parent0
  (parent, identity)

/-- Model of `generate_ggmuller_edges_table`: one `(Parent, Identity)` row per
genotype of the cluster map, in iteration order. -/
def generate_ggmuller_edges_table (genotype_clusters : List GenotypeInfo) :
    List (String × String) :=
  genotype_clusters.map edge_row

/-- A genotype frequency table: a shared ascending list of timepoint labels
and one row of aligned frequencies per genotype (the non-numeric `members`
column of the source tables is dropped before every computation modelled
here, and is therefore not part of the model). -/
structure GenotypeTable where
  timepoints : List ℚ
  rows : List (String × List ℚ)

/-- One row of the ggmuller population table. -/
structure PopRow where
  identity : String
  generation : ℚ
  population : ℚ
deriving DecidableEq

/-- Children of `parent` in the edge table, in edge order (the dict built by
`generate_ggmuller_population_table` from the edge rows). -/
def childrenMap (edges : List (String × String)) (parent : String) : List String :=
  (edges.filter (fun e => e.1 == parent)).map (fun e => e.2)

/-- Rows of the edge-filtered genotype table whose Identity is a child of
`parent` (`modified_genotypes.loc[children[parent]]`). -/
def child_rows (modified : List (String × List ℚ)) (edges : List (String × String))
    (parent : String) : List (List ℚ) :=
  (modified.filter (fun r => (childrenMap edges parent).contains r.1)).map Prod.snd

/-- Columnwise maximum over a list of child frequency rows
(`DataFrame.max()`, which skips the all-`NaN` case by returning `NaN`:
modelled as `none` when no child row is present). -/
def childMaxSeries (rows : List (List ℚ)) : Option (List ℚ) :=
  match rows with
  | [] => none
  | r :: rs => some (rs.foldl (fun acc s => List.zipWith max acc s) r)

/-- Loop body of the row-building phase of
`generate_ggmuller_population_table`, for one genotype row `r` of the
edge-filtered table `modified`: for a genotype with children in the edge
table, the timepoints where its own frequency exceeds `detection_cutoff` are
kept; at each, the columnwise maximum of the children is subtracted and any
value below `detection_cutoff` is replaced by `0.01` (`mask`); points that
are `NaN` after the index alignment (including the all-children-missing case)
are dropped.  A genotype without children emits `frequency * 100` at every
timepoint. -/
def population_rows_of (modified : List (String × List ℚ))
    (edges : List (String × String)) (timepoints : List ℚ) (detection_cutoff : ℚ)
    (r : String × List ℚ) : List PopRow :=
  if (childrenMap edges r.1).isEmpty then
    (timepoints.zip r.2).map (fun p => ⟨r.1, p.1, p.2 * 100⟩)
  else
    match childMaxSeries (child_rows modified edges r.1) with
    | none => []
    | some ms =>
      ((timepoints.zip r.2).zip ms).filterMap (fun p =>
        if detection_cutoff < p.1.2 then
          some ⟨r.1, p.1.1,
            (if p.1.2 - p.2 < detection_cutoff then 1 / 100 else p.1.2 - p.2) * 100⟩
        else none)

/-- The non-synthetic rows built by `generate_ggmuller_population_table`:
the table restricted to the edge identities, each genotype contributing its
population rows in order. -/
def buildRows (tbl : GenotypeTable) (edges : List (String × String))
    (detection_cutoff : ℚ) : List PopRow :=
  let modified := tbl.rows.filter (fun r => (edges.map Prod.snd).contains r.1)
  modified.flatMap (population_rows_of modified edges tbl.timepoints detection_cutoff)

/-- Sum of the `Population` column over the rows of a fixed generation. -/
def sumPopAt (rows : List PopRow) (g : ℚ) : ℚ :=
  ((rows.filter (fun r => r.generation == g)).map PopRow.population).sum

/-- The distinct generations of a row list, ascending (the iteration order of
`groupby('Generation')`). -/
def generationList (rows : List PopRow) : List ℚ :=
  List.insertionSort (· ≤ ·) (rows.map PopRow.generation).dedup

/-- Model of `generate_ggmuller_population_table`: the built rows followed by
one synthetic `genotype-0` row per distinct generation, holding
`100 - Σ population` there (clamped to `0` when the generation is
oversubscribed).  The Python function raises on an empty row list (the
`groupby` has no `Generation` column); the theorems about this model restrict
to nonempty row lists. -/
def generate_ggmuller_population_table (tbl : GenotypeTable)
    (edges : List (String × String)) (detection_cutoff : ℚ) : List PopRow :=
  let rows := buildRows tbl edges detection_cutoff
  rows ++ (generationList rows).map (fun g =>
    let population := sumPopAt rows g
    ⟨"genotype-0", g, if population ≤ 100 then 100 - population else 0⟩)

/-! ## src/muller/sort_genotypes.py -/

/-- Options record of the genotype sorter. -/
structure SortOptions where
  detection_breakpoint : ℚ
  significant_breakpoint : ℚ
  fixed_breakpoint : ℚ
  frequency_breakpoints : List ℚ

/-- The matlab preset (`SortOptions.from_matlab`). -/
def SortOptions.from_matlab : SortOptions :=
  ⟨3 / 100, 3 / 20, 17 / 20, [9 / 10, 3 / 4, 3 / 5, 9 / 20, 3 / 10, 3 / 20, 0]⟩

/-- The first timepoint label at which a frequency series exceeds `cutoff`
(`(transposed > cutoff).idxmax(0)`): `idxmax` returns the label of the first
`True`, and the first label of the index when the series is all-`False`. -/
def first_exceed (timepoints freqs : List ℚ) (cutoff : ℚ) : ℚ :=
  match (timepoints.zip freqs).find? (fun p => decide (cutoff < p.2)) with
  | some p => p.1
  | none => timepoints.headI

/-- The `(firstFixed, firstDetected, firstThreshold)` triple of a genotype row
at a tier. -/
def tierTriple (timepoints : List ℚ) (freqs : List ℚ)
    (frequency_breakpoint detection_cutoff significant_cutoff : ℚ) : ℚ × ℚ × ℚ :=
  (first_exceed timepoints freqs frequency_breakpoint,
   first_exceed timepoints freqs detection_cutoff,
   first_exceed timepoints freqs significant_cutoff)

/-- The grouping key used by the final `groupby` of
`sort_genotype_frequencies`: the tier triple with a `firstThreshold` of `0`
replaced by `13` (the source replicates this from the matlab script). -/
def tierKey (timepoints : List ℚ) (freqs : List ℚ)
    (frequency_breakpoint detection_cutoff significant_cutoff : ℚ) : ℚ × ℚ × ℚ :=
  let t := tierTriple timepoints freqs frequency_breakpoint detection_cutoff significant_cutoff
  (t.1, t.2.1, if t.2.2 = 0 then 13 else t.2.2)

/-- Lexicographic order on the grouping triples. -/
def lexLe (a b : ℚ × ℚ × ℚ) : Prop :=
  a.1 < b.1 ∨ (a.1 = b.1 ∧ (a.2.1 < b.2.1 ∨ (a.2.1 = b.2.1 ∧ a.2.2 ≤ b.2.2)))

/-- Strict lexicographic order on the grouping triples. -/
def lexLt (a b : ℚ × ℚ × ℚ) : Prop :=
  a.1 < b.1 ∨ (a.1 = b.1 ∧ (a.2.1 < b.2.1 ∨ (a.2.1 = b.2.1 ∧ a.2.2 < b.2.2)))

instance : DecidableRel lexLe := fun a b => by unfold lexLe; infer_instance

instance : DecidableRel lexLt := fun a b => by unfold lexLt; infer_instance

instance : IsTotal (ℚ × ℚ × ℚ) lexLe where
  total a b := by
    unfold lexLe
    rcases lt_trichotomy a.1 b.1 with h | h | h
    · exact Or.inl (Or.inl h)
    · rcases lt_trichotomy a.2.1 b.2.1 with h2 | h2 | h2
      · exact Or.inl (Or.inr ⟨h, Or.inl h2⟩)
      · rcases le_total a.2.2 b.2.2 with h3 | h3
        · exact Or.inl (Or.inr ⟨h, Or.inr ⟨h2, h3⟩⟩)
        · exact Or.inr (Or.inr ⟨h.symm, Or.inr ⟨h2.symm, h3⟩⟩)
      · exact Or.inr (Or.inr ⟨h.symm, Or.inl h2⟩)
    · exact Or.inr (Or.inl h)

instance : IsTrans (ℚ × ℚ × ℚ) lexLe where
  trans a b c hab hbc := by
    unfold lexLe at *
    rcases hab with h | ⟨e1, h⟩
    · rcases hbc with h2 | ⟨e2, _⟩
      · exact Or.inl (h.trans h2)
      · exact Or.inl (e2 ▸ h)
    · rcases hbc with h2 | ⟨e2, h3⟩
      · exact Or.inl (e1 ▸ h2)
      · refine Or.inr ⟨e1.trans e2, ?_⟩
        rcases h with h | ⟨e3, h4⟩
        · rcases h3 with h3 | ⟨e4, _⟩
          · exact Or.inl (h.trans h3)
          · exact Or.inl (e4 ▸ h)
        · rcases h3 with h3 | ⟨e4, h5⟩
          · exact Or.inl (e3 ▸ h3)
          · exact Or.inr ⟨e3.trans e4, h4.trans h5⟩

/-- The grouping key of the (unique) table row named `name` (`(0, 0, 0)` for
an absent name; the theorems only use present names). -/
def genotype_key (tbl : GenotypeTable)
    (frequency_breakpoint detection_cutoff significant_cutoff : ℚ)
    (name : String) : ℚ × ℚ × ℚ :=
  match tbl.rows.find? (fun s => s.1 == name) with
  | some r => tierKey tbl.timepoints r.2 frequency_breakpoint detection_cutoff
      significant_cutoff
  | none => (0, 0, 0)

/-- Position of a genotype name in the original table order. -/
def table_position (tbl : GenotypeTable) (name : String) : ℕ :=
  (tbl.rows.map Prod.fst).indexOf name

/-- Model of `sort_genotype_frequencies`.  The returned DataFrame is
represented by its index (the placed genotype names in order).  Genotypes
whose `firstFixed` label is `0` are removed by the `nonzero()` filter; at the
fixed tier (`frequency_breakpoint == fixed_cutoff`) the `dropna()` also
removes genotypes whose `firstDetected` label is `0`.  The result is grouped
by the `(firstFixed, firstDetected, firstThreshold)` key: `groupby` drops the
rows whose `firstDetected` is `NaN` (reduced away, i.e. equal to `0`),
iterates the group keys in ascending order, and the code emits each group in
the original table order.  When every surviving row was dropped by the
`groupby`, the code falls back to `sorted_frequencies` itself, whose order is
the stable sort of the rows by `firstFixed` and then by
`(firstDetected, firstThreshold)` with the all-`NaN` `firstDetected` column
tying everywhere. -/
def sort_genotype_frequencies (tbl : GenotypeTable)
    (frequency_breakpoint detection_cutoff significant_cutoff fixed_cutoff : ℚ) :
    List String :=
  let trip := fun (r : String × List ℚ) =>
    tierTriple tbl.timepoints r.2 frequency_breakpoint detection_cutoff significant_cutoff
  let key := fun (r : String × List ℚ) =>
    tierKey tbl.timepoints r.2 frequency_breakpoint detection_cutoff significant_cutoff
  let dfRows0 := tbl.rows.filter (fun r => decide ((trip r).1 ≠ 0))
  let dfRows := if frequency_breakpoint = fixed_cutoff then
    dfRows0.filter (fun r => decide ((trip r).2.1 ≠ 0)) else dfRows0
  let groupRows := dfRows.filter (fun r => decide ((trip r).2.1 ≠ 0))
  if groupRows.isEmpty then
    let sortedFallback := List.insertionSort (fun r s => lexLe (key r) (key s))
      (List.insertionSort (fun r s => (trip r).1 ≤ (trip s).1) dfRows)
    sortedFallback.map Prod.fst
  else
    let keys := List.insertionSort lexLe (groupRows.map key).dedup
    keys.flatMap (fun k => (groupRows.filter (fun r => key r == k)).map Prod.fst)

/-- Model of `sort_genotypes`: process the tiers
`fixed_breakpoint :: frequency_breakpoints` in order; at each tier the placed
genotypes are appended to the output and removed from the pool. -/
def sort_genotypes (tbl : GenotypeTable) (options : SortOptions) : List String :=
  ((options.fixed_breakpoint :: options.frequency_breakpoints).foldl
    (fun (acc : List String × List (String × List ℚ)) fb =>
      let placed := sort_genotype_frequencies ⟨tbl.timepoints, acc.2⟩ fb
        options.detection_breakpoint options.significant_breakpoint
        options.fixed_breakpoint
      (acc.1 ++ placed, acc.2.filter (fun r => !placed.contains r.1)))
    ([], tbl.rows)).1

/-! ## src/muller/muller_genotypes/generate.py -/

/-- Options record of the genotype generator. -/
structure GenotypeOptions where
  method : String
  detection_breakpoint : ℚ
  fixed_breakpoint : ℚ
  similarity_breakpoint : ℚ
  difference_breakpoint : ℚ
  starting_genotypes : List (List String)

/-- Model of `generate_genotypes`.  The two clustering method implementations
and the mean-genotype aggregation live outside the verified sources and are
passed as parameters (`γ` is the cluster assignment, `μ` the mean genotype
table with its member map, `lk` the linkage matrix).  The `matlab` branch has
no linkage matrix; an unrecognized method raises
`ValueError(f"Invalid clustering method: \x7bmethod\x7d")`, modelled as
`Except.error`, before any output is produced. -/
def generate_genotypes {γ μ lk : Type}
    (matlab_method : GenotypeTable → ℚ → ℚ → List (List String) → γ)
    (hierarchical_method : ℚ → γ × lk)
    (calculate_mean_genotype : γ → GenotypeTable → μ)
    (timepoints : GenotypeTable) (options : GenotypeOptions) :
    Except String (μ × Option lk) :=
  if options.method = "matlab" then
    let genotypes := matlab_method timepoints options.similarity_breakpoint
      options.difference_breakpoint options.starting_genotypes
    Except.ok (calculate_mean_genotype genotypes timepoints, none)
  else if options.method = "hierarchy" then
    let p := hierarchical_method options.similarity_breakpoint
    Except.ok (calculate_mean_genotype p.1 timepoints, some p.2)
  else
    Except.error ("Invalid clustering method: " ++ options.method)

/-! ## Helper lemmas -/

/-- In a list whose images under `f` are pairwise distinct, filtering for the
key of a member `x` yields exactly `[x]`. -/
theorem filter_key_eq_singleton {α β : Type} [DecidableEq β] (f : α → β) :
    ∀ {l : List α} {x : α}, (l.map f).Nodup → x ∈ l →
      l.filter (fun y => f y == f x) = [x] := by
  intro l
  induction l with
  | nil => intro x _ hx; exact absurd hx (List.not_mem_nil x)
  | cons b t ih =>
    intro x hnd hx
    rw [List.map_cons, List.nodup_cons] at hnd
    rcases List.mem_cons.1 hx with rfl | hxt
    · rw [List.filter_cons_of_pos (by simp)]
      have : t.filter (fun y => f y == f x) = [] := by
        rw [List.filter_eq_nil_iff]
        intro a ha hfa
        exact hnd.1 (List.mem_map.2 ⟨a, ha, by simpa using hfa⟩)
      rw [this]
    · have hfb : f b ≠ f x := fun h => hnd.1 (h ▸ List.mem_map_of_mem f hxt)
      rw [List.filter_cons_of_neg (by simpa using hfb)]
      exact ih hnd.2 hxt

/-- A list with pairwise distinct elements filtered for membership of one of
its elements is a singleton. -/
theorem filter_beq_eq_singleton {α : Type} [DecidableEq α] {l : List α} {a : α}
    (h : l.Nodup) (ha : a ∈ l) : l.filter (fun y => y == a) = [a] := by
  have := filter_key_eq_singleton (id : α → α) (by simpa using h) ha
  simpa using this

/-- Flat-mapping a function guarded by a boolean predicate is flat-mapping
over the filtered list. -/
theorem flatMap_guard_eq_filter_flatMap {α β : Type} (p : α → Bool) (g : α → List β) :
    ∀ l : List α, (l.flatMap (fun x => if p x then g x else [])) = (l.filter p).flatMap g := by
  intro l
  induction l with
  | nil => rfl
  | cons b t ih =>
    by_cases hb : p b
    · rw [List.flatMap_cons, List.filter_cons_of_pos hb, List.flatMap_cons, if_pos hb, ih]
    · rw [List.flatMap_cons, List.filter_cons_of_neg (by simpa using hb),
        if_neg (by simpa using hb), List.nil_append, ih]

/-- Swapping the two series swaps the components of every detected point. -/
theorem get_detected_points_swap (l r : List ℚ) (d : ℚ) :
    get_detected_points r l d = (get_detected_points l r d).map Prod.swap := by
  unfold get_detected_points
  rw [← List.zip_swap, List.filter_map]
  refine congrArg (List.map Prod.swap) (List.filter_congr ?_)
  intro p _
  simp [Function.comp, Bool.and_comm]

/-- The pairwise sums over the detected points are unchanged by swapping the
series. -/
theorem detected_sums_swap (l r : List ℚ) (d : ℚ) :
    (get_detected_points r l d).map (fun p => p.1 + p.2) =
      (get_detected_points l r d).map (fun p => p.1 + p.2) := by
  rw [get_detected_points_swap, List.map_map]
  refine List.map_congr_left ?_
  intro p _
  simp [add_comm]

/-- The pairwise absolute differences over the detected points are unchanged
by swapping the series. -/
theorem detected_diffs_swap (l r : List ℚ) (d : ℚ) :
    (get_detected_points r l d).map (fun p => |p.1 - p.2|) =
      (get_detected_points l r d).map (fun p => |p.1 - p.2|) := by
  rw [get_detected_points_swap, List.map_map]
  refine List.map_congr_left ?_
  intro p _
  simp [abs_sub_comm]

/-- Population sums split over list concatenation. -/
theorem sumPopAt_append (l₁ l₂ : List PopRow) (g : ℚ) :
    sumPopAt (l₁ ++ l₂) g = sumPopAt l₁ g + sumPopAt l₂ g := by
  unfold sumPopAt
  rw [List.filter_append, List.map_append, List.sum_append]

/-- Every population row emitted for a table row carries that row's name as
its identity. -/
theorem population_rows_of_identity (modified : List (String × List ℚ))
    (edges : List (String × String)) (timepoints : List ℚ) (dc : ℚ)
    (r : String × List ℚ) :
    ∀ p ∈ population_rows_of modified edges timepoints dc r, p.identity = r.1 := by
  intro p hp
  unfold population_rows_of at hp
  split at hp
  · rcases List.mem_map.1 hp with ⟨q, _, rfl⟩
    rfl
  · rcases hms : childMaxSeries (child_rows modified edges r.1) with _ | ms
    · rw [hms] at hp
      exact absurd hp (List.not_mem_nil p)
    · rw [hms] at hp
      rcases List.mem_filterMap.1 hp with ⟨q, _, hq⟩
      by_cases hc : dc < q.1.2
      · rw [if_pos hc, Option.some.injEq] at hq
        rw [← hq]
      · rw [if_neg hc] at hq
        exact absurd hq (by simp)

/-- The `(Parent, Identity)` row of a genotype not named `genotype-0`,
written with a single conditional. -/
theorem edge_row_eq (gi : GenotypeInfo) (h : gi.name ≠ "genotype-0") :
    edge_row gi =
      (if gi.background.length = 1 ∨ gi.background.headI = gi.name
        then "genotype-0" else gi.background.headI, gi.name) := by
  unfold edge_row
  dsimp only
  by_cases h1 : gi.background.length = 1
  · rw [if_pos h1, if_neg (Ne.symm h), if_pos (Or.inl h1)]
  · rw [if_neg h1]
    by_cases h2 : gi.background.headI = gi.name
    · rw [if_pos h2, if_pos (Or.inr h2)]
    · rw [if_neg h2, if_neg (by tauto)]

/-- A genotype not named `genotype-0` never becomes its own parent. -/
theorem edge_row_no_self (gi : GenotypeInfo) (h : gi.name ≠ "genotype-0") :
    (edge_row gi).1 ≠ (edge_row gi).2 := by
  rw [edge_row_eq gi h]
  dsimp only
  split_ifs with h1
  · exact Ne.symm h
  · exact (not_or.1 h1).2

/-- A list with pairwise distinct elements is pairwise increasing in its own
index function. -/
theorem nodup_pairwise_indexOf {α : Type} [DecidableEq α] {l : List α} (h : l.Nodup) :
    List.Pairwise (fun a b => l.indexOf a < l.indexOf b) l := by
  rw [List.pairwise_iff_getElem]
  intro i j hi hj hij
  rw [List.indexOf_getElem h i hi, List.indexOf_getElem h j hj]
  exact hij

/-- In a table with pairwise distinct names, looking a member row's name up
finds that row. -/
theorem find_row_of_mem :
    ∀ {l : List (String × List ℚ)}, (l.map Prod.fst).Nodup →
      ∀ {r : String × List ℚ}, r ∈ l → l.find? (fun s => s.1 == r.1) = some r := by
  intro l
  induction l with
  | nil => intro _ r hr; exact absurd hr (List.not_mem_nil r)
  | cons b t ih =>
    intro h r hr
    rw [List.map_cons, List.nodup_cons] at h
    rcases List.mem_cons.1 hr with rfl | hrt
    · rw [List.find?_cons_of_pos _ (by simp)]
    · have hb : b.1 ≠ r.1 := fun he => h.1 (he ▸ List.mem_map.2 ⟨r, hrt, rfl⟩)
      rw [List.find?_cons_of_neg _ (by simpa using hb)]
      exact ih h.2 hrt

/-- The lexicographic order is strict on distinct keys. -/
theorem lexLt_of_lexLe_of_ne {a b : ℚ × ℚ × ℚ} (h : lexLe a b) (hne : a ≠ b) :
    lexLt a b := by
  rcases h with h | ⟨e1, h2⟩
  · exact Or.inl h
  · rcases h2 with h2 | ⟨e2, h3⟩
    · exact Or.inr ⟨e1, Or.inl h2⟩
    · refine Or.inr ⟨e1, Or.inr ⟨e2, lt_of_le_of_ne h3 ?_⟩⟩
      intro he3
      exact hne (Prod.ext e1 (Prod.ext e2 he3))

/-- Under the regularity hypothesis that every genotype exceeding the tier
threshold away from timepoint label `0` is also detected away from label `0`,
the tier sorter reduces to its grouped normal form: the rows surviving the
`firstFixed` filter, emitted group by group along the ascending grouping
keys. -/
theorem tier_sort_eq_groups (tbl : GenotypeTable) (fb dc sc fc : ℚ)
    (hdet : ∀ r ∈ tbl.rows, (tierTriple tbl.timepoints r.2 fb dc sc).1 ≠ 0 →
      (tierTriple tbl.timepoints r.2 fb dc sc).2.1 ≠ 0) :
    sort_genotype_frequencies tbl fb dc sc fc =
      (List.insertionSort lexLe
        (((tbl.rows.filter (fun r =>
            decide ((tierTriple tbl.timepoints r.2 fb dc sc).1 ≠ 0))).map
          (fun r => tierKey tbl.timepoints r.2 fb dc sc)).dedup)).flatMap
        (fun k => ((tbl.rows.filter (fun r =>
            decide ((tierTriple tbl.timepoints r.2 fb dc sc).1 ≠ 0))).filter
          (fun r => tierKey tbl.timepoints r.2 fb dc sc == k)).map Prod.fst) := by
  have h1 : (tbl.rows.filter (fun r =>
      decide ((tierTriple tbl.timepoints r.2 fb dc sc).1 ≠ 0))).filter
      (fun r => decide ((tierTriple tbl.timepoints r.2 fb dc sc).2.1 ≠ 0)) =
      tbl.rows.filter (fun r =>
        decide ((tierTriple tbl.timepoints r.2 fb dc sc).1 ≠ 0)) := by
    refine List.filter_eq_self.2 ?_
    intro r hr
    have hr2 := List.mem_filter.1 hr
    exact decide_eq_true (hdet r hr2.1 (of_decide_eq_true hr2.2))
  unfold sort_genotype_frequencies
  dsimp only
  have h2 : (if fb = fc then
      (tbl.rows.filter (fun r =>
        decide ((tierTriple tbl.timepoints r.2 fb dc sc).1 ≠ 0))).filter
        (fun r => decide ((tierTriple tbl.timepoints r.2 fb dc sc).2.1 ≠ 0))
      else tbl.rows.filter (fun r =>
        decide ((tierTriple tbl.timepoints r.2 fb dc sc).1 ≠ 0))) =
      tbl.rows.filter (fun r =>
        decide ((tierTriple tbl.timepoints r.2 fb dc sc).1 ≠ 0)) := by
    split_ifs with h
    · exact h1
    · rfl
  rw [h2, h1]
  by_cases he : (tbl.rows.filter (fun r =>
      decide ((tierTriple tbl.timepoints r.2 fb dc sc).1 ≠ 0))).isEmpty
  · rw [if_pos he]
    rw [List.isEmpty_iff] at he
    rw [he]
    simp
  · rw [if_neg he]

/-- The Student t density with 2 degrees of freedom in closed form. -/
theorem studentTDensity_two (y : ℝ) :
    studentTDensity 2 y = ((y ^ 2 + 2) : ℝ) ^ (-(3/2) : ℝ) := by
  unfold studentTDensity
  have h1 : ((((2:ℕ) : ℝ)) + 1) / 2 = (3:ℝ)/2 := by norm_num
  have h2 : (((2:ℕ) : ℝ)) / 2 = 1 := by norm_num
  rw [h1, h2, Real.Gamma_one]
  have h3 : Real.Gamma ((3:ℝ)/2) = Real.sqrt Real.pi / 2 := by
    have he : (3:ℝ)/2 = 1/2 + 1 := by norm_num
    rw [he, Real.Gamma_add_one (by norm_num), Real.Gamma_one_half_eq]
    ring
  rw [h3]
  have h4 : Real.sqrt ((((2:ℕ)) : ℝ) * Real.pi) = Real.sqrt 2 * Real.sqrt Real.pi := by
    push_cast
    exact Real.sqrt_mul (by norm_num) _
  rw [h4]
  have h5 : (1 + y ^ 2 / (((2:ℕ)) : ℝ)) = (y ^ 2 + 2) / 2 := by push_cast; ring
  rw [h5]
  have hy2 : (0:ℝ) ≤ y ^ 2 + 2 := by positivity
  rw [Real.div_rpow hy2 (by norm_num : (0:ℝ) ≤ 2)]
  have h2pow : (2:ℝ) ^ ((-(3/2)) : ℝ) = (2 * Real.sqrt 2)⁻¹ := by
    rw [show ((-(3/2)) : ℝ) = -(3/2) from rfl, Real.rpow_neg (by norm_num)]
    congr 1
    rw [show ((3:ℝ)/2) = 1 + 1/2 by norm_num, Real.rpow_add (by norm_num), Real.rpow_one,
      ← Real.sqrt_eq_rpow]
  rw [h2pow]
  have hpi : Real.sqrt Real.pi ≠ 0 := by
    rw [Real.sqrt_ne_zero']
    exact Real.pi_pos
  have hs2 : Real.sqrt 2 ≠ 0 := by
    rw [Real.sqrt_ne_zero']
    norm_num
  field_simp
  ring

/-- The density rewritten through the square root, for the antiderivative
argument. -/
theorem rpow_neg_three_halves_eq (y : ℝ) :
    ((y ^ 2 + 2) : ℝ) ^ (-(3/2) : ℝ) = 1 / (Real.sqrt (y ^ 2 + 2)) ^ 3 := by
  have hpos : (0:ℝ) < y ^ 2 + 2 := by positivity
  rw [Real.rpow_neg hpos.le, show ((3:ℝ)/2) = 1 + 1/2 by norm_num,
    Real.rpow_add hpos, Real.rpow_one, ← Real.sqrt_eq_rpow]
  rw [one_div]
  congr 1
  rw [show (Real.sqrt (y ^ 2 + 2)) ^ 3 =
      (Real.sqrt (y ^ 2 + 2)) ^ 2 * Real.sqrt (y ^ 2 + 2) by ring,
    Real.sq_sqrt hpos.le]

/-- The function `x / (2 √(x² + 2))` is an antiderivative of the
2-degrees-of-freedom Student t density. -/
theorem hasDerivAt_tail (y : ℝ) :
    HasDerivAt (fun x : ℝ => x / (2 * Real.sqrt (x ^ 2 + 2)))
      (1 / (Real.sqrt (y ^ 2 + 2)) ^ 3) y := by
  have hpos : (0:ℝ) < y ^ 2 + 2 := by positivity
  have hspos : 0 < Real.sqrt (y ^ 2 + 2) := Real.sqrt_pos.2 hpos
  have hu : HasDerivAt (fun x : ℝ => x ^ 2 + 2) (2 * y) y := by
    simpa using (hasDerivAt_pow 2 y).add_const 2
  have hsq : HasDerivAt (fun x : ℝ => Real.sqrt (x ^ 2 + 2))
      (2 * y / (2 * Real.sqrt (y ^ 2 + 2))) y := hu.sqrt (ne_of_gt hpos)
  have hden : HasDerivAt (fun x : ℝ => 2 * Real.sqrt (x ^ 2 + 2))
      (2 * (2 * y / (2 * Real.sqrt (y ^ 2 + 2)))) y := hsq.const_mul 2
  have hne : 2 * Real.sqrt (y ^ 2 + 2) ≠ 0 := by positivity
  have hdiv := (hasDerivAt_id y).div hden hne
  convert hdiv using 1
  have hs2 : Real.sqrt (y ^ 2 + 2) ^ 2 = y ^ 2 + 2 := Real.sq_sqrt hpos.le
  have hsne : Real.sqrt (y ^ 2 + 2) ≠ 0 := ne_of_gt hspos
  simp only [id]
  field_simp
  ring_nf
  have hs2' : Real.sqrt (2 + y ^ 2) ^ 2 = 2 + y ^ 2 := Real.sq_sqrt (by positivity)
  linear_combination (-(4:ℝ) * Real.sqrt (2 + y ^ 2) ^ 3) * hs2'

/-- The antiderivative tends to `1/2` at infinity. -/
theorem tendsto_tail :
    Filter.Tendsto (fun y : ℝ => y / (2 * Real.sqrt (y ^ 2 + 2)))
      Filter.atTop (nhds (1/2)) := by
  have h1 : Filter.Tendsto (fun y : ℝ => 2 / y ^ 2) Filter.atTop (nhds 0) :=
    Filter.Tendsto.div_atTop tendsto_const_nhds (Filter.tendsto_pow_atTop (by norm_num))
  have h2 : Filter.Tendsto (fun y : ℝ => Real.sqrt (1 + 2 / y ^ 2))
      Filter.atTop (nhds 1) := by
    have h0 : Filter.Tendsto (fun y : ℝ => 1 + 2 / y ^ 2) Filter.atTop (nhds 1) := by
      simpa using tendsto_const_nhds.add h1
    have hc := (Real.continuous_sqrt.tendsto 1).comp h0
    simpa using hc
  have h4 : Filter.Tendsto (fun y : ℝ => 2 * Real.sqrt (1 + 2 / y ^ 2))
      Filter.atTop (nhds 2) := by
    have := h2.const_mul (2:ℝ)
    simpa using this
  have h3 : Filter.Tendsto (fun y : ℝ => 1 / (2 * Real.sqrt (1 + 2 / y ^ 2)))
      Filter.atTop (nhds (1/2)) := by
    have := h4.inv₀ (by norm_num)
    simpa [one_div] using this
  refine h3.congr' ?_
  filter_upwards [Filter.eventually_gt_atTop (0:ℝ)] with y hy
  have hsqy : Real.sqrt (1 + 2 / y ^ 2) = Real.sqrt (y ^ 2 + 2) / y := by
    rw [show (1 + 2 / y ^ 2) = (y ^ 2 + 2) / y ^ 2 by field_simp,
      Real.sqrt_div (by positivity) (y ^ 2), Real.sqrt_sq hy.le]
  rw [hsqy]
  have hs : Real.sqrt (y ^ 2 + 2) > 0 := Real.sqrt_pos.2 (by positivity)
  field_simp

/-- Closed form of the Student t survival function with 2 degrees of
freedom. -/
theorem studentTSf_two (t : ℝ) :
    studentTSf 2 t = 1/2 - t / (2 * Real.sqrt (t ^ 2 + 2)) := by
  unfold studentTSf
  have hdens : ∀ y : ℝ, studentTDensity 2 y = 1 / (Real.sqrt (y ^ 2 + 2)) ^ 3 :=
    fun y => (studentTDensity_two y).trans (rpow_neg_three_halves_eq y)
  calc (∫ y in Set.Ioi t, studentTDensity 2 y) =
      ∫ y in Set.Ioi t, 1 / (Real.sqrt (y ^ 2 + 2)) ^ 3 := by
        simp only [hdens]
    _ = 1/2 - t / (2 * Real.sqrt (t ^ 2 + 2)) :=
        MeasureTheory.integral_Ioi_of_hasDerivAt_of_nonneg'
          (fun x _ => hasDerivAt_tail x)
          (fun x _ => by positivity)
          tendsto_tail

/-- The detected-point sums of the spec's end-to-end additive example. -/
theorem sums_of_example :
    (get_detected_points [0, 1/2, 9/10, 9/10] [0, 1/2, 9/10, 9/10] (3/100)).map
      (fun p => p.1 + p.2) = [1, 9/5, 9/5] := by
  norm_num [get_detected_points]

/-- The t statistic of the example sums against the population mean `1`. -/
theorem tstat_example : tStatistic [1, 9/5, 9/5] 1 = 2 := by
  unfold tStatistic
  rw [show ((listMean [1, 9/5, 9/5] : ℚ) : ℝ) = 23/15 by norm_num [listMean],
    show ((sampleVariance [1, 9/5, 9/5] : ℚ) : ℝ) = 16/75 by
      norm_num [sampleVariance, listMean],
    show ((([1, (9:ℚ)/5, 9/5].length : ℕ) : ℝ) = 3) by norm_num]
  have hsq : Real.sqrt ((16:ℝ)/75) / Real.sqrt (3 : ℝ) = 4/15 := by
    rw [← Real.sqrt_div (by norm_num : (0:ℝ) ≤ 16/75) 3,
      show (16:ℝ)/75/3 = (4/15)^2 by norm_num]
    exact Real.sqrt_sq (by norm_num)
  rw [hsq]
  norm_num

/-- The two-tailed p-value of the example t test is twice the survival
function at `t = 2` with 2 degrees of freedom. -/
theorem ttest_example : ttest_1samp [1, 9/5, 9/5] 1 = some (2 * studentTSf 2 2) := by
  unfold ttest_1samp
  rw [if_neg (by norm_num), if_neg (by norm_num [sampleVariance, listMean])]
  rw [tstat_example]
  norm_num

/-- Value of the survival function at the example statistic. -/
theorem sf_two_val : studentTSf 2 2 = 1/2 - 1/Real.sqrt 6 := by
  rw [studentTSf_two, show ((2:ℝ)^2 + 2) = 6 by norm_num]
  have h : Real.sqrt 6 ≠ 0 := by
    rw [Real.sqrt_ne_zero']
    norm_num
  rw [show (2:ℝ) / (2 * Real.sqrt 6) = 1 / Real.sqrt 6 by field_simp]

/-- The one-tailed p-value of the example exceeds the 0.05 significance
level. -/
theorem sf_two_gt : (1:ℝ)/20 < studentTSf 2 2 := by
  rw [sf_two_val]
  have h6 : (20:ℝ)/9 < Real.sqrt 6 := by
    rw [Real.lt_sqrt (by norm_num)]
    norm_num
  have hpos : (0:ℝ) < Real.sqrt 6 := lt_trans (by norm_num) h6
  have h20 : (20:ℝ) < Real.sqrt 6 * 9 := by
    have := (div_lt_iff₀ (by norm_num : (0:ℝ) < 9)).1 h6
    linarith
  have hinv : 1 / Real.sqrt 6 < 9/20 := by
    rw [div_lt_div_iff₀ hpos (by norm_num)]
    linarith
  linarith

/-- The additive check accepts (returns `True`) on the spec's end-to-end
example: the one-tailed p-value `1/2 - 1/√6 ≈ 0.092` is not below `0.05`. -/
theorem additive_check_true_on_example :
    check_additive_background [0, 1/2, 9/10, 9/10] [0, 1/2, 9/10, 9/10]
      (103/100) (23/20) := by
  simp only [check_additive_background]
  rw [sums_of_example, if_neg (by decide), ttest_example]
  show ¬ ((2 * studentTSf 2 2) / 2 ≤ 1/20)
  intro hle
  have := sf_two_gt
  linarith

/-! ## Claim theorems -/

/-- C10: for every options value whose `method` is neither `"matlab"` nor
`"hierarchy"`, `generate_genotypes` fails with a configuration error naming
the invalid method, and returns no genotype table, member map or linkage
matrix. -/
theorem generate_genotypes_invalid_method {γ μ lk : Type}
    (matlab_method : GenotypeTable → ℚ → ℚ → List (List String) → γ)
    (hierarchical_method : ℚ → γ × lk)
    (calculate_mean_genotype : γ → GenotypeTable → μ)
    (timepoints : GenotypeTable) (options : GenotypeOptions)
    (h1 : options.method ≠ "matlab") (h2 : options.method ≠ "hierarchy") :
    generate_genotypes matlab_method hierarchical_method calculate_mean_genotype
      timepoints options =
      Except.error ("Invalid clustering method: " ++ options.method) := by
  unfold generate_genotypes
  rw [if_neg h1, if_neg h2]

/-- Witness for C10 at the concrete invalid method `"foo"`. -/
theorem generate_genotypes_invalid_method_witness :
    ("foo" ≠ "matlab") ∧ ("foo" ≠ "hierarchy") ∧
    generate_genotypes (fun _ _ _ _ => ()) (fun _ => ((), ())) (fun _ _ => ())
      (⟨[], []⟩ : GenotypeTable)
      (⟨"foo", 3 / 100, 97 / 100, 5 / 100, 1 / 10, []⟩ : GenotypeOptions) =
      Except.error ("Invalid clustering method: " ++ "foo") :=
  ⟨by decide, by decide,
    generate_genotypes_invalid_method _ _ _ _ _ (by decide) (by decide)⟩

/-- C6 (corrected): the derivative check is the covariance of the two full
series — its `detection_cutoff` argument is ignored — and
`apply_genotype_checks` computes it only when the subtractive check is false,
returning `None` for the delta whenever the subtractive check is true. -/
theorem derivative_check_full_covariance (t u : List ℚ) (o : GenotypeCheckOptions)
    (c c' : ℚ) :
    check_derivative_background t u c = listCov t u ∧
    check_derivative_background t u c = check_derivative_background t u c' ∧
    ((apply_genotype_checks t u o).2.2 = none ↔
      check_subtractive_background t u o.subtractive_background_double_cutoff
        o.subtractive_background_single_cutoff) ∧
    ((apply_genotype_checks t u o).2.2 = none ∨
      (apply_genotype_checks t u o).2.2 = some (listCov t u)) := by
  classical
  refine ⟨rfl, rfl, ?_, ?_⟩
  · simp only [apply_genotype_checks]
    split_ifs with h
    · simpa using h
    · simpa using h
  · simp only [apply_genotype_checks]
    split_ifs with h
    · exact Or.inl rfl
    · exact Or.inr rfl

/-- Counterexample for C6: on the pair `[0, 0.5, 0.9]`, `[0, 0.5, 0.9]` with
detection cutoff `0.03`, the source's derivative check (covariance over the
full series, `61/300`) differs from the covariance over the overlapping
detected region described by the spec (`2/25`). -/
theorem derivative_check_not_detected_covariance :
    check_derivative_background [0, 1/2, 9/10] [0, 1/2, 9/10] (3/100) ≠
      spec_derivative_covariance [0, 1/2, 9/10] [0, 1/2, 9/10] (3/100) := by
  norm_num [check_derivative_background, spec_derivative_covariance, listCov, listCovPairs,
    listMean, get_detected_points]

/-- C5 (corrected): on a pair with no overlapping detected timepoints neither
check raises; the neutral fallback `(statistic, pvalue) = (0, 0)` is
substituted, and since a p-value of `0` is below every significance cutoff it
is treated as significant: both the additive and the subtractive check return
`False` on such degenerate input. -/
theorem empty_overlap_checks_false (left right : List ℚ) (a b c d : ℚ)
    (h : get_detected_points left right (3/100) = []) :
    ¬ check_additive_background left right a b ∧
    ¬ check_subtractive_background left right c d := by
  constructor
  · simp only [check_additive_background, h]
    norm_num [pvalueLe]
  · simp only [check_subtractive_background, h]
    norm_num [pvalueGt]

/-- Witness for C5: the series `[0.01]` and `[0.02]` are nowhere detected at
cutoff `0.03`, and both checks return `False` on them. -/
theorem empty_overlap_checks_false_witness :
    get_detected_points [1/100] [1/50] (3/100) = [] ∧
    (¬ check_additive_background [1/100] [1/50] (103/100) (23/20) ∧
     ¬ check_subtractive_background [1/100] [1/50] (-3/100) (-3/20)) :=
  ⟨by norm_num [get_detected_points],
   empty_overlap_checks_false _ _ _ _ _ _ (by norm_num [get_detected_points])⟩

/-- Counterexample for C4: on the trajectories
`A = B = [0, 0.5, 0.9, 0.9]` the claim asserts the additive check returns
`False`; it returns `True` (the t statistic over the sums `[1.0, 1.8, 1.8]`
is `2` with 2 degrees of freedom, whose one-tailed p-value `1/2 - 1/√6` is
above `0.05`). -/
theorem additive_check_example_not_false :
    check_additive_background [0, 1/2, 9/10, 9/10] [0, 1/2, 9/10, 9/10]
      (103/100) (23/20) :=
  additive_check_true_on_example

/-- C4 (amended): on the end-to-end example `A = B = [0, 0.5, 0.9, 0.9]`
with detection breakpoint `0.03`, the overlapping detected points carry the
sums `[1.0, 1.8, 1.8]`; the two-tailed p-value of the one-sample t test of
those sums against `1.0` is `2 · sf₂(2)`, the halved (one-tailed) p-value
`sf₂(2) = 1/2 - 1/√6 ≈ 0.092` exceeds `0.05`, and the additive check
therefore returns `True`, not `False`. -/
theorem additive_check_example_analysis :
    (get_detected_points [0, 1/2, 9/10, 9/10] [0, 1/2, 9/10, 9/10] (3/100)).map
        (fun p => p.1 + p.2) = [1, 9/5, 9/5] ∧
    ttest_1samp [1, 9/5, 9/5] 1 = some (2 * studentTSf 2 2) ∧
    studentTSf 2 2 = 1/2 - 1/Real.sqrt 6 ∧
    (1:ℝ)/20 < studentTSf 2 2 ∧
    check_additive_background [0, 1/2, 9/10, 9/10] [0, 1/2, 9/10, 9/10]
      (103/100) (23/20) :=
  ⟨sums_of_example, ttest_example, sf_two_val, sf_two_gt,
   additive_check_true_on_example⟩

/-- C7: swapping the two input series never changes the boolean result of the
additive or of the subtractive background check (both tests are computed from
symmetric combinations of the detected points: elementwise sums and
elementwise absolute differences). -/
theorem checks_symmetric (left right : List ℚ) (dc sc dc' sc' : ℚ) :
    (check_additive_background left right dc sc ↔
      check_additive_background right left dc sc) ∧
    (check_subtractive_background left right dc' sc' ↔
      check_subtractive_background right left dc' sc') := by
  constructor
  · simp only [check_additive_background]
    rw [detected_sums_swap]
  · simp only [check_subtractive_background]
    rw [detected_diffs_swap]

/-- C1: under the data-model assumptions (unique genotype names, nonempty
ancestor lists, the reserved root name `genotype-0` unused by genotypes), the
edge table holds exactly one row per genotype; its `Parent` is the first
element of the genotype's background list, replaced by `genotype-0` when that
list has length 1 or its first element is the genotype itself, and no row is
self-parenting. -/
theorem edges_table_rows (cl : List GenotypeInfo)
    (hnodup : (cl.map GenotypeInfo.name).Nodup)
    (hbg : ∀ gi ∈ cl, gi.background ≠ [])
    (hroot : ∀ gi ∈ cl, gi.name ≠ "genotype-0") :
    (∀ gi ∈ cl,
      (generate_ggmuller_edges_table cl).filter (fun row => row.2 == gi.name) =
        [(if gi.background.length = 1 ∨ gi.background.headI = gi.name
            then "genotype-0" else gi.background.headI, gi.name)]) ∧
    (∀ row ∈ generate_ggmuller_edges_table cl, row.1 ≠ row.2) := by
  constructor
  · intro gi hgi
    unfold generate_ggmuller_edges_table
    rw [List.filter_map]
    have hpred : ((fun row : String × String => row.2 == gi.name) ∘ edge_row) =
        (fun g : GenotypeInfo => g.name == gi.name) := rfl
    rw [hpred, filter_key_eq_singleton GenotypeInfo.name hnodup hgi, List.map_singleton,
      edge_row_eq gi (hroot gi hgi)]
  · intro row hrow
    rcases List.mem_map.1 hrow with ⟨gi, hgi, rfl⟩
    exact edge_row_no_self gi (hroot gi hgi)

/-- Witness for C1 on a concrete two-genotype cluster map. -/
theorem edges_table_rows_witness :
    (([⟨"genotype-1", ["genotype-1"]⟩, ⟨"genotype-2", ["genotype-1", "genotype-2"]⟩] :
        List GenotypeInfo).map GenotypeInfo.name).Nodup ∧
    (∀ gi ∈ ([⟨"genotype-1", ["genotype-1"]⟩,
        ⟨"genotype-2", ["genotype-1", "genotype-2"]⟩] : List GenotypeInfo),
      gi.background ≠ [] ∧ gi.name ≠ "genotype-0") ∧
    ((∀ gi ∈ ([⟨"genotype-1", ["genotype-1"]⟩,
        ⟨"genotype-2", ["genotype-1", "genotype-2"]⟩] : List GenotypeInfo),
      (generate_ggmuller_edges_table [⟨"genotype-1", ["genotype-1"]⟩,
          ⟨"genotype-2", ["genotype-1", "genotype-2"]⟩]).filter
          (fun row => row.2 == gi.name) =
        [(if gi.background.length = 1 ∨ gi.background.headI = gi.name
            then "genotype-0" else gi.background.headI, gi.name)]) ∧
     (∀ row ∈ generate_ggmuller_edges_table [⟨"genotype-1", ["genotype-1"]⟩,
          ⟨"genotype-2", ["genotype-1", "genotype-2"]⟩], row.1 ≠ row.2)) :=
  ⟨by decide, by decide,
   edges_table_rows _ (by decide) (by decide) (by decide)⟩

/-- C2: for every generation occurring among the built rows, the population
table appends exactly one synthetic `genotype-0` row carrying
`max 0 (100 - Σ other populations)`; consequently, whenever the built rows
sum to at most 100 at a generation, the populations of all rows of that
generation, synthetic root included, sum to exactly 100.  (The Python
function raises on an empty built-row list, hence the nonemptiness
hypothesis.) -/
theorem population_table_root_rows (tbl : GenotypeTable)
    (edges : List (String × String)) (dc : ℚ)
    (hne : buildRows tbl edges dc ≠ []) :
    ∀ g ∈ (buildRows tbl edges dc).map PopRow.generation,
      (((generate_ggmuller_population_table tbl edges dc).drop
          (buildRows tbl edges dc).length).filter (fun r => r.generation == g) =
        [⟨"genotype-0", g, max 0 (100 - sumPopAt (buildRows tbl edges dc) g)⟩]) ∧
      (sumPopAt (buildRows tbl edges dc) g ≤ 100 →
        sumPopAt (generate_ggmuller_population_table tbl edges dc) g = 100) := by
  intro g hg
  have hdrop : (generate_ggmuller_population_table tbl edges dc).drop
      (buildRows tbl edges dc).length =
      (generationList (buildRows tbl edges dc)).map (fun x =>
        (⟨"genotype-0", x, if sumPopAt (buildRows tbl edges dc) x ≤ 100
          then 100 - sumPopAt (buildRows tbl edges dc) x else 0⟩ : PopRow)) := by
    unfold generate_ggmuller_population_table
    exact List.drop_left _ _
  have hnodupg : (generationList (buildRows tbl edges dc)).Nodup :=
    ((List.perm_insertionSort _ _).nodup_iff).2 (List.nodup_dedup _)
  have hgmem : g ∈ generationList (buildRows tbl edges dc) :=
    ((List.perm_insertionSort _ _).mem_iff).2 (List.mem_dedup.2 hg)
  have hone : ((generate_ggmuller_population_table tbl edges dc).drop
      (buildRows tbl edges dc).length).filter (fun r => r.generation == g) =
      [⟨"genotype-0", g, if sumPopAt (buildRows tbl edges dc) g ≤ 100
        then 100 - sumPopAt (buildRows tbl edges dc) g else 0⟩] := by
    rw [hdrop, List.filter_map]
    have hpred : ((fun r : PopRow => r.generation == g) ∘ (fun x : ℚ =>
        (⟨"genotype-0", x, if sumPopAt (buildRows tbl edges dc) x ≤ 100
          then 100 - sumPopAt (buildRows tbl edges dc) x else 0⟩ : PopRow))) =
        (fun x : ℚ => x == g) := rfl
    rw [hpred, filter_beq_eq_singleton hnodupg hgmem, List.map_singleton]
  constructor
  · rw [hone]
    have hmax : (if sumPopAt (buildRows tbl edges dc) g ≤ 100
        then 100 - sumPopAt (buildRows tbl edges dc) g else 0) =
        max 0 (100 - sumPopAt (buildRows tbl edges dc) g) := by
      split_ifs with h
      · exact (max_eq_right (by linarith)).symm
      · exact (max_eq_left (by linarith)).symm
    rw [hmax]
  · intro hle
    have hsplit : generate_ggmuller_population_table tbl edges dc =
        buildRows tbl edges dc ++ (generationList (buildRows tbl edges dc)).map (fun x =>
          (⟨"genotype-0", x, if sumPopAt (buildRows tbl edges dc) x ≤ 100
            then 100 - sumPopAt (buildRows tbl edges dc) x else 0⟩ : PopRow)) := rfl
    have hsynth : sumPopAt ((generationList (buildRows tbl edges dc)).map (fun x =>
        (⟨"genotype-0", x, if sumPopAt (buildRows tbl edges dc) x ≤ 100
          then 100 - sumPopAt (buildRows tbl edges dc) x else 0⟩ : PopRow))) g =
        100 - sumPopAt (buildRows tbl edges dc) g := by
      have hx : ((generationList (buildRows tbl edges dc)).map (fun x =>
          (⟨"genotype-0", x, if sumPopAt (buildRows tbl edges dc) x ≤ 100
            then 100 - sumPopAt (buildRows tbl edges dc) x else 0⟩ : PopRow))).filter
          (fun r => r.generation == g) =
          [⟨"genotype-0", g, if sumPopAt (buildRows tbl edges dc) g ≤ 100
            then 100 - sumPopAt (buildRows tbl edges dc) g else 0⟩] := by
        rw [← hdrop]; exact hone
      show ((((generationList (buildRows tbl edges dc)).map (fun x =>
          (⟨"genotype-0", x, if sumPopAt (buildRows tbl edges dc) x ≤ 100
            then 100 - sumPopAt (buildRows tbl edges dc) x else 0⟩ : PopRow))).filter
          (fun r => r.generation == g)).map PopRow.population).sum =
          100 - sumPopAt (buildRows tbl edges dc) g
      rw [hx]
      simp [if_pos hle]
    rw [hsplit, sumPopAt_append, hsynth]
    ring

/-- Witness for C2 on a concrete one-genotype table with a single
timepoint. -/
theorem population_table_root_rows_witness :
    (buildRows ⟨[0], [("genotype-1", [1/2])]⟩ [("genotype-0", "genotype-1")]
        (3/100) ≠ []) ∧
    (∀ g ∈ (buildRows ⟨[0], [("genotype-1", [1/2])]⟩ [("genotype-0", "genotype-1")]
        (3/100)).map PopRow.generation,
      (((generate_ggmuller_population_table ⟨[0], [("genotype-1", [1/2])]⟩
          [("genotype-0", "genotype-1")] (3/100)).drop
          (buildRows ⟨[0], [("genotype-1", [1/2])]⟩ [("genotype-0", "genotype-1")]
            (3/100)).length).filter (fun r => r.generation == g) =
        [⟨"genotype-0", g, max 0 (100 - sumPopAt (buildRows ⟨[0], [("genotype-1", [1/2])]⟩
          [("genotype-0", "genotype-1")] (3/100)) g)⟩]) ∧
      (sumPopAt (buildRows ⟨[0], [("genotype-1", [1/2])]⟩ [("genotype-0", "genotype-1")]
          (3/100)) g ≤ 100 →
        sumPopAt (generate_ggmuller_population_table ⟨[0], [("genotype-1", [1/2])]⟩
          [("genotype-0", "genotype-1")] (3/100)) g = 100)) :=
  ⟨by norm_num [buildRows, population_rows_of, childrenMap,
      (by decide : ("genotype-0" : String) ≠ "genotype-1")],
   population_table_root_rows _ _ _ (by norm_num [buildRows, population_rows_of, childrenMap,
      (by decide : ("genotype-0" : String) ≠ "genotype-1")])⟩

/-- Counterexample for C3: with detection cutoff `0.03`, a parent genotype at
frequency `0.9` whose child sits at `0.88` gets the masked population
`0.01 * 100 = 1`, whereas the claimed `max(epsilon, 0.9 - 0.88) * 100`
equals `2`: values below the detection cutoff are replaced by `0.01`, not
floored at `max` with it. -/
theorem population_value_not_max_epsilon :
    ((generate_ggmuller_population_table
        ⟨[0], [("genotype-1", [9/10]), ("genotype-2", [88/100])]⟩
        [("genotype-0", "genotype-1"), ("genotype-1", "genotype-2")] (3/100)).filter
      (fun r => r.identity == "genotype-1")) = [⟨"genotype-1", 0, 1⟩] ∧
    (1 : ℚ) ≠ max (1/100) (9/10 - 88/100) * 100 := by
  constructor
  · norm_num [generate_ggmuller_population_table, buildRows, population_rows_of,
      childrenMap, child_rows, childMaxSeries, generationList, sumPopAt,
      List.filterMap_cons, List.insertionSort, List.orderedInsert,
      List.dedup_cons_of_mem, List.dedup_cons_of_not_mem,
      (by decide : ("genotype-0" : String) ≠ "genotype-1"),
      (by decide : ("genotype-1" : String) ≠ "genotype-0"),
      (by decide : ("genotype-0" : String) ≠ "genotype-2"),
      (by decide : ("genotype-2" : String) ≠ "genotype-0"),
      (by decide : ("genotype-1" : String) ≠ "genotype-2"),
      (by decide : ("genotype-2" : String) ≠ "genotype-1")]
  · norm_num

/-- C3 (amended): in the population table, a genotype with children in the
edge table keeps exactly the timepoints where its own frequency exceeds the
detection cutoff; at each kept point the emitted population is
`(if f - maxChild < detection_cutoff then 0.01 else f - maxChild) * 100`, so
negative or small differences are replaced by `0.01` rather than dropped
(and rather than floored at `max(epsilon, ·)`); a genotype without children
emits `frequency * 100` at every timepoint. -/
theorem population_rows_of_genotype (tbl : GenotypeTable)
    (edges : List (String × String)) (dc : ℚ) (label : String) (freqs : List ℚ)
    (hnodup : (tbl.rows.map Prod.fst).Nodup)
    (hmem : (label, freqs) ∈ tbl.rows)
    (hin : ((edges.map Prod.snd).contains label) = true)
    (hroot : label ≠ "genotype-0") :
    ((childrenMap edges label).isEmpty = true →
      (generate_ggmuller_population_table tbl edges dc).filter
          (fun r => r.identity == label) =
        (tbl.timepoints.zip freqs).map (fun p => (⟨label, p.1, p.2 * 100⟩ : PopRow))) ∧
    (∀ ms, (childrenMap edges label).isEmpty = false →
      childMaxSeries (child_rows
          (tbl.rows.filter (fun r => (edges.map Prod.snd).contains r.1))
          edges label) = some ms →
      (generate_ggmuller_population_table tbl edges dc).filter
          (fun r => r.identity == label) =
        ((tbl.timepoints.zip freqs).zip ms).filterMap (fun p =>
          if dc < p.1.2 then
            some ⟨label, p.1.1,
              (if p.1.2 - p.2 < dc then 1 / 100 else p.1.2 - p.2) * 100⟩
          else none)) := by
  have hmod : (label, freqs) ∈
      tbl.rows.filter (fun r => (edges.map Prod.snd).contains r.1) :=
    List.mem_filter.2 ⟨hmem, hin⟩
  have hnodupm : ((tbl.rows.filter
      (fun r => (edges.map Prod.snd).contains r.1)).map Prod.fst).Nodup :=
    List.Nodup.sublist (List.Sublist.map Prod.fst (List.filter_sublist tbl.rows)) hnodup
  have hfil : (generate_ggmuller_population_table tbl edges dc).filter
      (fun r => r.identity == label) =
      population_rows_of (tbl.rows.filter (fun r => (edges.map Prod.snd).contains r.1))
        edges tbl.timepoints dc (label, freqs) := by
    have hsplit : generate_ggmuller_population_table tbl edges dc =
        buildRows tbl edges dc ++ (generationList (buildRows tbl edges dc)).map (fun x =>
          (⟨"genotype-0", x, if sumPopAt (buildRows tbl edges dc) x ≤ 100
            then 100 - sumPopAt (buildRows tbl edges dc) x else 0⟩ : PopRow)) := rfl
    rw [hsplit, List.filter_append]
    have hsyn : ((generationList (buildRows tbl edges dc)).map (fun x =>
        (⟨"genotype-0", x, if sumPopAt (buildRows tbl edges dc) x ≤ 100
          then 100 - sumPopAt (buildRows tbl edges dc) x else 0⟩ : PopRow))).filter
        (fun r => r.identity == label) = [] := by
      rw [List.filter_eq_nil_iff]
      intro a ha
      rcases List.mem_map.1 ha with ⟨x, _, rfl⟩
      simpa using Ne.symm hroot
    rw [hsyn, List.append_nil]
    unfold buildRows
    dsimp only
    rw [List.filter_flatMap]
    have hfun : (fun r : String × List ℚ =>
        (population_rows_of (tbl.rows.filter (fun r => (edges.map Prod.snd).contains r.1))
          edges tbl.timepoints dc r).filter (fun p => p.identity == label)) =
        (fun r : String × List ℚ => if r.1 == label then
          population_rows_of (tbl.rows.filter (fun r => (edges.map Prod.snd).contains r.1))
            edges tbl.timepoints dc r else []) := by
      funext r
      by_cases h : r.1 = label
      · rw [if_pos (by simpa using h)]
        refine List.filter_eq_self.2 ?_
        intro p hp
        simpa using (population_rows_of_identity _ _ _ _ _ p hp).trans h
      · rw [if_neg (by simpa using h)]
        refine List.filter_eq_nil_iff.2 ?_
        intro p hp
        simpa using (population_rows_of_identity _ _ _ _ _ p hp).trans_ne h
    rw [hfun, flatMap_guard_eq_filter_flatMap]
    have hsing : (tbl.rows.filter (fun r => (edges.map Prod.snd).contains r.1)).filter
        (fun r => r.1 == label) = [(label, freqs)] :=
      filter_key_eq_singleton Prod.fst hnodupm hmod
    rw [hsing]
    simp
  constructor
  · intro hleaf
    rw [hfil]
    unfold population_rows_of
    rw [if_pos hleaf]
  · intro ms hchild hms
    rw [hfil]
    unfold population_rows_of
    rw [if_neg (by simp [hchild]), hms]

/-- Witness for C3 on a two-genotype, two-timepoint table where
`genotype-1` is the parent of `genotype-2`. -/
theorem population_rows_of_genotype_witness :
    ((([("genotype-1", [1/10, 9/10]), ("genotype-2", [2/100, 3/10])] :
        List (String × List ℚ)).map Prod.fst).Nodup ∧
     (("genotype-1", [1/10, 9/10]) ∈ ([("genotype-1", [1/10, 9/10]),
        ("genotype-2", [2/100, 3/10])] : List (String × List ℚ))) ∧
     ((([("genotype-0", "genotype-1"), ("genotype-1", "genotype-2")] :
        List (String × String)).map Prod.snd).contains "genotype-1" = true)) ∧
    (generate_ggmuller_population_table
        ⟨[0, 1], [("genotype-1", [1/10, 9/10]), ("genotype-2", [2/100, 3/10])]⟩
        [("genotype-0", "genotype-1"), ("genotype-1", "genotype-2")] (3/100)).filter
      (fun r => r.identity == "genotype-1") =
      [⟨"genotype-1", 0, 8⟩, ⟨"genotype-1", 1, 60⟩] := by
  refine ⟨⟨by decide, by norm_num, by decide⟩, ?_⟩
  have h := (population_rows_of_genotype
    ⟨[0, 1], [("genotype-1", [1/10, 9/10]), ("genotype-2", [2/100, 3/10])]⟩
    [("genotype-0", "genotype-1"), ("genotype-1", "genotype-2")] (3/100)
    "genotype-1" [1/10, 9/10]
    (by decide) (by norm_num) (by decide) (by decide)).2
    [2/100, 3/10] (by decide) (by rfl)
  rw [h]
  norm_num [List.filterMap_cons]

/-- C8 (code bug): on the table with timepoints `[0, 1]` and genotypes
`genotype-1 = [0.5, 0.5]`, `genotype-2 = [0, 0.5]`, the matlab-preset sorter
returns only `[genotype-2]`: the `nonzero()`-based reductions drop every
genotype whose first-exceed timepoint label is `0` — conflating "never
exceeds the threshold" with "already exceeds it at timepoint 0" — so
`genotype-1` is placed at no tier and the output is not a permutation of the
input ids, contradicting the code's own comment that only genotypes "never
detected" are removed. -/
theorem sort_genotypes_drops_timepoint_zero :
    sort_genotypes ⟨[0, 1], [("genotype-1", [1/2, 1/2]), ("genotype-2", [0, 1/2])]⟩
      SortOptions.from_matlab = ["genotype-2"] ∧
    ¬ (sort_genotypes ⟨[0, 1], [("genotype-1", [1/2, 1/2]), ("genotype-2", [0, 1/2])]⟩
        SortOptions.from_matlab).Perm ["genotype-1", "genotype-2"] := by
  have h : sort_genotypes ⟨[0, 1], [("genotype-1", [1/2, 1/2]), ("genotype-2", [0, 1/2])]⟩
      SortOptions.from_matlab = ["genotype-2"] := by
    norm_num [sort_genotypes, SortOptions.from_matlab, sort_genotype_frequencies,
      tierTriple, tierKey, first_exceed, List.find?, List.filter, List.dedup,
      List.insertionSort, List.flatMap]
  refine ⟨h, ?_⟩
  rw [h]
  intro hperm
  have hlen := hperm.length_eq
  simp at hlen

/-- Counterexample for C9: at the fixed tier `0.85` of the table
`A = [0.1, 0.2, 0.9]`, `B = [0.05, 0.9, 0.91]` over timepoints `[1, 2, 3]`,
the two genotypes have identical claimed sort tuples
`(first detected, first above threshold) = (1, 2)`, so the claim requires the
original order `[A, B]`; the code emits `[B, A]` because its final `groupby`
re-sorts by the triple led by the tier's `firstFixed` label (`B` fixes at
label 2, `A` at label 3). -/
theorem tier_sort_not_by_detected_tuple :
    sort_genotype_frequencies
      ⟨[1, 2, 3], [("A", [1/10, 1/5, 9/10]), ("B", [1/20, 9/10, 91/100])]⟩
      (17/20) (3/100) (3/20) (17/20) = ["B", "A"] ∧
    first_exceed [1, 2, 3] [1/10, 1/5, 9/10] (3/100) =
      first_exceed [1, 2, 3] [1/20, 9/10, 91/100] (3/100) ∧
    first_exceed [1, 2, 3] [1/10, 1/5, 9/10] (3/20) =
      first_exceed [1, 2, 3] [1/20, 9/10, 91/100] (3/20) := by
  refine ⟨?_, by norm_num [first_exceed, List.find?], by norm_num [first_exceed, List.find?]⟩
  norm_num [sort_genotype_frequencies, tierTriple, tierKey, first_exceed, List.find?,
    List.filter_cons, List.dedup, List.insertionSort, List.orderedInsert, List.flatMap,
    lexLe, Prod.mk.injEq]

/-- C9 (amended): within a tier, the genotypes kept are exactly those whose
first timepoint exceeding the tier threshold has a nonzero label (the
encoding of "defined" used by the `nonzero()` reduction), and — provided
every such genotype is also first detected at a nonzero label, so that the
final `groupby` drops no rows — they are emitted in ascending order of the
triple (first fixed at tier, first detected, first above the significant
cutoff with label 0 replaced by 13), genotypes with identical triples keeping
their original table order.  The claimed ascending order by
(first detected, first above threshold) alone does not hold: the tier
threshold key leads the sort. -/
theorem tier_sort_characterization (tbl : GenotypeTable) (fb dc sc fc : ℚ)
    (hnodup : (tbl.rows.map Prod.fst).Nodup)
    (hdet : ∀ r ∈ tbl.rows, (tierTriple tbl.timepoints r.2 fb dc sc).1 ≠ 0 →
      (tierTriple tbl.timepoints r.2 fb dc sc).2.1 ≠ 0) :
    (∀ name, name ∈ sort_genotype_frequencies tbl fb dc sc fc ↔
      ∃ r ∈ tbl.rows, r.1 = name ∧ first_exceed tbl.timepoints r.2 fb ≠ 0) ∧
    List.Pairwise (fun a b =>
      lexLt (genotype_key tbl fb dc sc a) (genotype_key tbl fb dc sc b) ∨
      (genotype_key tbl fb dc sc a = genotype_key tbl fb dc sc b ∧
        table_position tbl a < table_position tbl b))
      (sort_genotype_frequencies tbl fb dc sc fc) := by
  classical
  have heq := tier_sort_eq_groups tbl fb dc sc fc hdet
  have hkeyeq : ∀ r ∈ tbl.rows, genotype_key tbl fb dc sc r.1 =
      tierKey tbl.timepoints r.2 fb dc sc := by
    intro r hr
    unfold genotype_key
    rw [find_row_of_mem hnodup hr]
  constructor
  · intro name
    rw [heq]
    constructor
    · intro hmem
      rcases List.mem_flatMap.1 hmem with ⟨k, _, hname⟩
      rcases List.mem_map.1 hname with ⟨r, hr, rfl⟩
      have hr2 := List.mem_filter.1 (List.mem_filter.1 hr).1
      exact ⟨r, hr2.1, rfl, of_decide_eq_true hr2.2⟩
    · rintro ⟨r, hr, rfl, hff⟩
      have hrk : r ∈ tbl.rows.filter (fun r =>
          decide ((tierTriple tbl.timepoints r.2 fb dc sc).1 ≠ 0)) :=
        List.mem_filter.2 ⟨hr, decide_eq_true hff⟩
      refine List.mem_flatMap.2 ⟨tierKey tbl.timepoints r.2 fb dc sc, ?_, ?_⟩
      · exact ((List.perm_insertionSort _ _).mem_iff).2
          (List.mem_dedup.2 (List.mem_map.2 ⟨r, hrk, rfl⟩))
      · exact List.mem_map.2 ⟨r, List.mem_filter.2 ⟨hrk, by simp⟩, rfl⟩
  · rw [heq, List.flatMap_def, List.pairwise_flatten]
    have hposPW : List.Pairwise (fun r s : String × List ℚ =>
        table_position tbl r.1 < table_position tbl s.1) tbl.rows := by
      have h0 := nodup_pairwise_indexOf hnodup
      rw [List.pairwise_map] at h0
      exact h0
    constructor
    · intro gl hgl
      rcases List.mem_map.1 hgl with ⟨k, _, rfl⟩
      rw [List.pairwise_map]
      have hsub : List.Sublist ((tbl.rows.filter (fun r =>
          decide ((tierTriple tbl.timepoints r.2 fb dc sc).1 ≠ 0))).filter
          (fun r => tierKey tbl.timepoints r.2 fb dc sc == k)) tbl.rows :=
        (List.filter_sublist _).trans (List.filter_sublist _)
      refine List.Pairwise.imp_of_mem ?_ (hposPW.sublist hsub)
      intro r s hrmem hsmem hpos
      have hr1 := List.mem_filter.1 hrmem
      have hs1 := List.mem_filter.1 hsmem
      have hrrow := (List.mem_filter.1 hr1.1).1
      have hsrow := (List.mem_filter.1 hs1.1).1
      refine Or.inr ⟨?_, hpos⟩
      rw [hkeyeq r hrrow, hkeyeq s hsrow,
        (by simpa using hr1.2 : tierKey tbl.timepoints r.2 fb dc sc = k),
        (by simpa using hs1.2 : tierKey tbl.timepoints s.2 fb dc sc = k)]
    · rw [List.pairwise_map]
      have hsorted : List.Pairwise lexLe (List.insertionSort lexLe
          (((tbl.rows.filter (fun r =>
            decide ((tierTriple tbl.timepoints r.2 fb dc sc).1 ≠ 0))).map
            (fun r => tierKey tbl.timepoints r.2 fb dc sc)).dedup)) :=
        List.sorted_insertionSort lexLe _
      have hnodupk : (List.insertionSort lexLe
          (((tbl.rows.filter (fun r =>
            decide ((tierTriple tbl.timepoints r.2 fb dc sc).1 ≠ 0))).map
            (fun r => tierKey tbl.timepoints r.2 fb dc sc)).dedup)).Nodup :=
        ((List.perm_insertionSort _ _).nodup_iff).2 (List.nodup_dedup _)
      have hlt : List.Pairwise lexLt (List.insertionSort lexLe
          (((tbl.rows.filter (fun r =>
            decide ((tierTriple tbl.timepoints r.2 fb dc sc).1 ≠ 0))).map
            (fun r => tierKey tbl.timepoints r.2 fb dc sc)).dedup)) :=
        (List.Pairwise.and hsorted hnodupk).imp
          (fun h => lexLt_of_lexLe_of_ne h.1 h.2)
      refine hlt.imp ?_
      intro k1 k2 hk x hx y hy
      rcases List.mem_map.1 hx with ⟨r, hr, rfl⟩
      rcases List.mem_map.1 hy with ⟨s, hs, rfl⟩
      have hr1 := List.mem_filter.1 hr
      have hs1 := List.mem_filter.1 hs
      have hrrow := (List.mem_filter.1 hr1.1).1
      have hsrow := (List.mem_filter.1 hs1.1).1
      refine Or.inl ?_
      rw [hkeyeq r hrrow, hkeyeq s hsrow,
        (by simpa using hr1.2 : tierKey tbl.timepoints r.2 fb dc sc = k1),
        (by simpa using hs1.2 : tierKey tbl.timepoints s.2 fb dc sc = k2)]
      exact hk

/-- Witness for C9 on a concrete two-genotype table over timepoints
`[1, 2]`. -/
theorem tier_sort_characterization_witness :
    ((([("A", [1/10, 9/10]), ("B", [0, 1/2])] : List (String × List ℚ)).map
        Prod.fst).Nodup ∧
     (∀ r ∈ ([("A", [1/10, 9/10]), ("B", [0, 1/2])] : List (String × List ℚ)),
       (tierTriple [1, 2] r.2 (17/20) (3/100) (3/20)).1 ≠ 0 →
       (tierTriple [1, 2] r.2 (17/20) (3/100) (3/20)).2.1 ≠ 0)) ∧
    ((∀ name, name ∈ sort_genotype_frequencies
        ⟨[1, 2], [("A", [1/10, 9/10]), ("B", [0, 1/2])]⟩ (17/20) (3/100) (3/20) (17/20) ↔
      ∃ r ∈ ([("A", [1/10, 9/10]), ("B", [0, 1/2])] : List (String × List ℚ)),
        r.1 = name ∧ first_exceed [1, 2] r.2 (17/20) ≠ 0) ∧
     List.Pairwise (fun a b =>
       lexLt (genotype_key ⟨[1, 2], [("A", [1/10, 9/10]), ("B", [0, 1/2])]⟩
           (17/20) (3/100) (3/20) a)
         (genotype_key ⟨[1, 2], [("A", [1/10, 9/10]), ("B", [0, 1/2])]⟩
           (17/20) (3/100) (3/20) b) ∨
       (genotype_key ⟨[1, 2], [("A", [1/10, 9/10]), ("B", [0, 1/2])]⟩
           (17/20) (3/100) (3/20) a =
         genotype_key ⟨[1, 2], [("A", [1/10, 9/10]), ("B", [0, 1/2])]⟩
           (17/20) (3/100) (3/20) b ∧
         table_position ⟨[1, 2], [("A", [1/10, 9/10]), ("B", [0, 1/2])]⟩ a <
           table_position ⟨[1, 2], [("A", [1/10, 9/10]), ("B", [0, 1/2])]⟩ b))
       (sort_genotype_frequencies ⟨[1, 2], [("A", [1/10, 9/10]), ("B", [0, 1/2])]⟩
         (17/20) (3/100) (3/20) (17/20))) :=
  ⟨⟨by decide, by norm_num [tierTriple, first_exceed, List.find?]⟩,
   tier_sort_characterization _ _ _ _ _ (by decide)
     (by norm_num [tierTriple, first_exceed, List.find?])⟩

/-- Counterexample for C5: the claim says both checks return `True` on an
empty overlap; on the all-undetected pair `[0]`, `[0]` both return
`False`. -/
theorem empty_overlap_checks_not_true :
    ¬ check_additive_background [0] [0] (103/100) (23/20) ∧
    ¬ check_subtractive_background [0] [0] (-3/100) (-3/20) := by
  constructor
  · simp only [check_additive_background]
    norm_num [get_detected_points, pvalueLe]
  · simp only [check_subtractive_background]
    norm_num [get_detected_points, pvalueGt]

end Muller
